/-
Verification development for the board-game recommendation notebook
(JMB_recommendation_engine_method_3.1_v1.ipynb).

The notebook's two algorithmic cells are shallowly embedded here:
 * the weighted/unweighted Alternating Least Squares routine `do_ALS`
   (with its helper `get_error` and the internally derived weight
   matrix `computeW`),
 * the pandas pivot / filtering steps of the pipeline cell
   (`traindata`, `testdata_filt`, `pivotColumns`, `pivotIndex`,
   `fillna0`, the clamping `clip_upper` / `clip_lower`),
 * the nearest-neighbour estimator `estimate_ratings` with its
   per-query body `estimateOne`.

Modelling conventions:
 * numpy float64 values are modelled as rationals (ℚ); `NaN` cells of a
   pandas frame are modelled as `none` in an `Option ℚ` matrix, so
   `np.isnan` becomes an `Option.isSome` test, and an uncaught pandas
   `KeyError` is modelled as `Except.error`;
 * the random factor initialisation `5 * np.random.rand(...)` is
   modelled by passing the initial factor matrices explicitly;
 * `np.linalg.solve` is modelled by `solveLin`, multiplication by the
   adjugate-based inverse, which agrees with the unique solution
   whenever the system matrix is nonsingular;
 * `np.argsort` is modelled by an insertion sort on indices ordered by
   (distance, original position).  numpy's default quicksort leaves the
   order of equal keys unspecified; the model resolves ties by original
   row order (numpy's `kind=stable` behaviour, and the tie order the
   spec asserts);
 * `scipy.spatial.distance.cdist` computes euclidean distances; the
   model sorts by squared euclidean distance, which yields the same
   order since squaring is monotone on nonnegative reals.
-/
import Mathlib

/-- A row of the ratings table: (userID, gameID, rating). -/
structure RatingRec where
  userID : ℕ
  gameID : ℕ
  rating : ℚ
deriving DecidableEq, Repr

/-- A row of the test table: a (userID, gameID) query. -/
structure QueryRec where
  userID : ℕ
  gameID : ℕ
deriving DecidableEq, Repr

/-- `traindata = userdata[userdata.userID.isin(set(testdata.userID))]`:
keep the full-data rows whose user occurs in the test set. -/
def traindata (userdata : List RatingRec) (testdata : List QueryRec) :
    List RatingRec :=
  userdata.filter (fun rec => decide (rec.userID ∈ testdata.map (fun q => q.userID)))

/-- `testdata_filt = testdata[testdata.userID.isin(set(userdata.userID))]`:
keep the test rows whose user occurs in the full data. -/
def testdata_filt (userdata : List RatingRec) (testdata : List QueryRec) :
    List QueryRec :=
  testdata.filter (fun q => decide (q.userID ∈ userdata.map (fun rec => rec.userID)))

/-- The column labels of `data.pivot(index="userID", columns="gameID",
values="rating")`: the distinct gameIDs occurring in `data` (pandas sorts
the labels; the order is irrelevant to the claims, which only use
membership). -/
def pivotColumns (data : List RatingRec) : List ℕ :=
  (data.map (fun rec => rec.gameID)).dedup

/-- The row labels of the same pivot: the distinct userIDs occurring in
`data`. -/
def pivotIndex (data : List RatingRec) : List ℕ :=
  (data.map (fun rec => rec.userID)).dedup

/-- `train_p.index.get_loc`, on a matrix whose row `r` carries label
`index r`: position of the first row labelled `u`, or `none` (pandas
raises `KeyError`) when no row has that label. -/
def get_loc {m : ℕ} (index : Fin m → ℕ) (u : ℕ) : Option (Fin m) :=
  (List.finRange m).find? (fun r => index r == u)

/-- The weight matrix `do_ALS` derives internally from its input:
`W = Q > 0.5` cast to float, i.e. the 0/1 indicator of `Q i j > 0.5`.
`do_ALS` takes no observed-mask argument. -/
def computeW {m n : ℕ} (Q : Matrix (Fin m) (Fin n) ℚ) :
    Matrix (Fin m) (Fin n) ℚ :=
  Matrix.of fun i j => if (1 : ℚ) / 2 < Q i j then 1 else 0

/-- `get_error(Q, X, Y, W) = np.sum((W * (Q - np.dot(X, Y)))**2)`. -/
def get_error {m n k : ℕ} (Q : Matrix (Fin m) (Fin n) ℚ)
    (X : Matrix (Fin m) (Fin k) ℚ) (Y : Matrix (Fin k) (Fin n) ℚ)
    (W : Matrix (Fin m) (Fin n) ℚ) : ℚ :=
  ∑ i, ∑ j, (W i j * (Q i j - (X * Y) i j)) ^ 2

/-- Model of `np.linalg.solve A b`: multiplication by the adjugate-based
inverse `det(A)⁻¹ • adj(A)`.  When `A.det ≠ 0` this is the unique
solution of `A x = b` (numpy raises on an exactly singular matrix; the
model then returns the zero vector, a value no claim relies on). -/
def solveLin {k : ℕ} (A : Matrix (Fin k) (Fin k) ℚ) (b : Fin k → ℚ) :
    Fin k → ℚ :=
  ((A.det)⁻¹ • A.adjugate).mulVec b

/-- The per-user linear system of the weighted X-update:
coefficient matrix `Y·diag(W_u)·Yᵀ + λI` and right-hand side
`Y·diag(W_u)·Q_uᵀ`. -/
def userSystem {m n k : ℕ} (Q W : Matrix (Fin m) (Fin n) ℚ)
    (Y : Matrix (Fin k) (Fin n) ℚ) (lambda_ : ℚ) (u : Fin m) :
    Matrix (Fin k) (Fin k) ℚ × (Fin k → ℚ) :=
  (Y * Matrix.diagonal (W u) * Y.transpose + lambda_ • 1,
   (Y * Matrix.diagonal (W u)).mulVec (Q u))

/-- The per-item linear system of the weighted Y-update:
coefficient matrix `Xᵀ·diag(W_i)·X + λI` and right-hand side
`Xᵀ·diag(W_i)·Q_i`. -/
def itemSystem {m n k : ℕ} (Q W : Matrix (Fin m) (Fin n) ℚ)
    (X : Matrix (Fin m) (Fin k) ℚ) (lambda_ : ℚ) (i : Fin n) :
    Matrix (Fin k) (Fin k) ℚ × (Fin k → ℚ) :=
  (X.transpose * Matrix.diagonal (fun u => W u i) * X + lambda_ • 1,
   (X.transpose * Matrix.diagonal (fun u => W u i)).mulVec (fun u => Q u i))

/-- Weighted X-update: `X[u] = np.linalg.solve(...)` for every user row
(each row's system involves only `Y`, `W` and `Q`, so the source's
in-place row loop equals this simultaneous update). -/
def updateX_w {m n k : ℕ} (Q W : Matrix (Fin m) (Fin n) ℚ)
    (Y : Matrix (Fin k) (Fin n) ℚ) (lambda_ : ℚ) :
    Matrix (Fin m) (Fin k) ℚ :=
  Matrix.of fun u i =>
    solveLin (userSystem Q W Y lambda_ u).1 (userSystem Q W Y lambda_ u).2 i

/-- Weighted Y-update: `Y[:,i] = np.linalg.solve(...)` for every item
column (each column's system involves only `X`, `W` and `Q`). -/
def updateY_w {m n k : ℕ} (Q W : Matrix (Fin m) (Fin n) ℚ)
    (X : Matrix (Fin m) (Fin k) ℚ) (lambda_ : ℚ) :
    Matrix (Fin k) (Fin n) ℚ :=
  Matrix.of fun a i =>
    solveLin (itemSystem Q W X lambda_ i).1 (itemSystem Q W X lambda_ i).2 a

/-- Unweighted X-update:
`X = np.linalg.solve(Y·Yᵀ + λI, Y·Qᵀ).T`, read row by row. -/
def updateX_unw {m n k : ℕ} (Q : Matrix (Fin m) (Fin n) ℚ)
    (Y : Matrix (Fin k) (Fin n) ℚ) (lambda_ : ℚ) :
    Matrix (Fin m) (Fin k) ℚ :=
  Matrix.of fun u i =>
    solveLin (Y * Y.transpose + lambda_ • 1) (Y.mulVec (Q u)) i

/-- Unweighted Y-update:
`Y = np.linalg.solve(Xᵀ·X + λI, Xᵀ·Q)`, read column by column. -/
def updateY_unw {m n k : ℕ} (Q : Matrix (Fin m) (Fin n) ℚ)
    (X : Matrix (Fin m) (Fin k) ℚ) (lambda_ : ℚ) :
    Matrix (Fin k) (Fin n) ℚ :=
  Matrix.of fun a i =>
    solveLin (X.transpose * X + lambda_ • 1)
      (X.transpose.mulVec (fun u => Q u i)) a

/-- One iteration of the `do_ALS` loop body: update `X` from the current
`Y`, then update `Y` from the new `X` (in either branch `W` is the
internally derived `computeW Q`). -/
def alsStep {m n k : ℕ} (weighted : Bool) (Q : Matrix (Fin m) (Fin n) ℚ)
    (lambda_ : ℚ)
    (XY : Matrix (Fin m) (Fin k) ℚ × Matrix (Fin k) (Fin n) ℚ) :
    Matrix (Fin m) (Fin k) ℚ × Matrix (Fin k) (Fin n) ℚ :=
  if weighted then
    let X' := updateX_w Q (computeW Q) XY.2 lambda_
    (X', updateY_w Q (computeW Q) X' lambda_)
  else
    let X' := updateX_unw Q XY.2 lambda_
    (X', updateY_unw Q X' lambda_)

/-- The `for ii in range(n_iterations)` loop of `do_ALS`: runs the step
exactly `N` times (no early stopping) and appends
`get_error(Q, X, Y, W)` once per iteration. -/
def alsIter {m n k : ℕ} (weighted : Bool) (Q : Matrix (Fin m) (Fin n) ℚ)
    (lambda_ : ℚ) :
    ℕ → Matrix (Fin m) (Fin k) ℚ × Matrix (Fin k) (Fin n) ℚ →
    (Matrix (Fin m) (Fin k) ℚ × Matrix (Fin k) (Fin n) ℚ) × List ℚ
  | 0, XY => (XY, [])
  | Nat.succ nIt, XY =>
    let XY' := alsStep weighted Q lambda_ XY
    let rest := alsIter weighted Q lambda_ nIt XY'
    (rest.1, get_error Q XY'.1 XY'.2 (computeW Q) :: rest.2)

/-- `do_ALS(Q, n_iterations, lambda_, n_factors, weighted)`: derives `W`
from `Q` internally (see `computeW`), iterates the alternating updates,
and returns `(Q_hat, X, Y, errors)` with `Q_hat = np.dot(X, Y)`.
`n_factors` is the type index `k`; the random initial factors are the
explicit arguments `X0`, `Y0`. -/
def do_ALS {m n k : ℕ} (Q : Matrix (Fin m) (Fin n) ℚ) (n_iterations : ℕ)
    (lambda_ : ℚ) (weighted : Bool) (X0 : Matrix (Fin m) (Fin k) ℚ)
    (Y0 : Matrix (Fin k) (Fin n) ℚ) :
    Matrix (Fin m) (Fin n) ℚ × Matrix (Fin m) (Fin k) ℚ ×
      Matrix (Fin k) (Fin n) ℚ × List ℚ :=
  let r := alsIter weighted Q lambda_ n_iterations (X0, Y0)
  (r.1.1 * r.1.2, r.1.1, r.1.2, r.2)

/-- `train_p.fillna(0).values`: missing cells become the numeric 0. -/
def fillna0 {m n : ℕ} (P : Matrix (Fin m) (Fin n) (Option ℚ)) :
    Matrix (Fin m) (Fin n) ℚ :=
  Matrix.of fun i j => (P i j).getD 0

/-- The observed-mask of a pivot matrix: 1 where a rating exists
(cell is not NaN), 0 otherwise. -/
def observedMask {m n : ℕ} (P : Matrix (Fin m) (Fin n) (Option ℚ)) :
    Matrix (Fin m) (Fin n) ℚ :=
  Matrix.of fun i j => if (P i j).isSome then 1 else 0

/-- `DataFrame.clip_upper(c)`: entrywise `min · c`. -/
def clip_upper {m n : ℕ} (M : Matrix (Fin m) (Fin n) ℚ) (c : ℚ) :
    Matrix (Fin m) (Fin n) ℚ :=
  Matrix.of fun i j => min (M i j) c

/-- `DataFrame.clip_lower(c)`: entrywise `max · c`. -/
def clip_lower {m n : ℕ} (M : Matrix (Fin m) (Fin n) ℚ) (c : ℚ) :
    Matrix (Fin m) (Fin n) ℚ :=
  Matrix.of fun i j => max (M i j) c

/-- The notebook's clamping step:
`train_p_filled.clip_upper(10)` then `.clip_lower(1)`. -/
def clampRatings {m n : ℕ} (M : Matrix (Fin m) (Fin n) ℚ) :
    Matrix (Fin m) (Fin n) ℚ :=
  clip_lower (clip_upper M 10) 1

/-- Squared euclidean distance between two coordinate vectors (`cdist`
computes the euclidean distance; sorting by the square gives the same
order). -/
def distsq {d : ℕ} (a b : Fin d → ℚ) : ℚ :=
  ∑ j, (a j - b j) ^ 2

/-- The order `np.argsort` sorts row indices by: ascending distance,
ties broken by original row position. -/
def distRank {m : ℕ} (dists : Fin m → ℚ) (a b : Fin m) : Prop :=
  dists a < dists b ∨ (dists a = dists b ∧ a ≤ b)

instance {m : ℕ} (dists : Fin m → ℚ) : DecidableRel (distRank dists) :=
  fun _ _ => inferInstanceAs (Decidable (_ ∨ _))

/-- `ind, = np.argsort(dists)`: all row indices sorted by `distRank`. -/
def argsortDist {m : ℕ} (dists : Fin m → ℚ) : List (Fin m) :=
  List.insertionSort (distRank dists) (List.finRange m)

/-- The neighbour-walk of `estimate_ratings`: traverse users in sorted
order; whenever `train_p[gameID][user]` is not NaN, append it, and break
as soon as `len(ratings) >= numneighbors2use` (tested after the
append). -/
def collectRatings {m : ℕ} (col : Fin m → Option ℚ) (nn : ℕ) :
    List (Fin m) → List ℚ → List ℚ
  | [], acc => acc
  | u :: rest, acc =>
    match col u with
    | some r =>
      if nn ≤ acc.length + 1 then acc ++ [r]
      else collectRatings col nn rest (acc ++ [r])
    | none => collectRatings col nn rest acc

/-- `np.mean`: the arithmetic mean, NaN (`none`) on the empty list. -/
def npMean (l : List ℚ) : Option ℚ :=
  if l.isEmpty then none else some (l.sum / l.length)

/-- The body of `estimate_ratings` for one test record: look the user up
in the training index (an uncaught `KeyError` — `Except.error` — if
absent), sort all users by distance to the user's coordinate, walk them
collecting up to `numneighbors2use` non-NaN values of the game's column,
and return their mean.  `col g v` is `train_p[g][v]`. -/
def estimateOne {m d : ℕ} (coords : Matrix (Fin m) (Fin d) ℚ)
    (index : Fin m → ℕ) (col : ℕ → Fin m → Option ℚ)
    (numneighbors2use : ℕ) (q : QueryRec) : Except ℕ (Option ℚ) :=
  match get_loc index q.userID with
  | none => Except.error q.userID
  | some r =>
    let dists : Fin m → ℚ :=
      fun v => distsq (fun j => coords r j) (fun j => coords v j)
    let ind := argsortDist dists
    Except.ok (npMean (collectRatings (col q.gameID) numneighbors2use ind []))

/-- `estimate_ratings(testdata, coords, train_p, numneighbors2use)`:
process the queries in order; an uncaught `KeyError` propagates and
aborts the whole batch (`List.mapM` in the `Except` monad stops at the
first error). -/
def estimate_ratings {m d : ℕ} (testdata : List QueryRec)
    (coords : Matrix (Fin m) (Fin d) ℚ) (index : Fin m → ℕ)
    (col : ℕ → Fin m → Option ℚ) (numneighbors2use : ℕ) :
    Except ℕ (List (Option ℚ)) :=
  testdata.mapM (estimateOne coords index col numneighbors2use)

/-- Spec-side description of the ratings `estimate_ratings` collects for
a query resolved to row `r`: the non-NaN values of the game's column
`col1`, read in ascending-distance order from row `r`, truncated to the
first `nn`.  `estimateOne` is proved to collect exactly this list. -/
def sortedObservedTake {m d : ℕ} (coords : Matrix (Fin m) (Fin d) ℚ)
    (col1 : Fin m → Option ℚ) (nn : ℕ) (r : Fin m) : List ℚ :=
  ((argsortDist (fun v => distsq (fun j => coords r j) (fun j => coords v j))).filterMap
    col1).take nn

/-- C2 counterexample data: a full dataset in which game 200 is rated
only by user 2, who is absent from the test set. -/
def userdataC2 : List RatingRec := [⟨1, 100, 5⟩, ⟨2, 200, 7⟩]

/-- C2 counterexample data: the test set contains only user 1. -/
def testdataC2 : List QueryRec := [⟨1, 100⟩]

/-- Concrete 3-user, 1-game pivot: only user 2 (row index 2) has an
observed rating (9) for the game; rows 0 and 1 are NaN. -/
def train_pC1 : Matrix (Fin 3) (Fin 1) (Option ℚ) :=
  Matrix.of ![![none], ![none], ![some 9]]

/-- A completed, clamped matrix for the same scenario: the two
unobserved cells carry imputed values 5 and 3; the observed cell keeps
its rating 9.  (Clamping leaves these values unchanged.) -/
def completedC1 : Matrix (Fin 3) (Fin 1) ℚ :=
  clampRatings (Matrix.of ![![5], ![3], ![9]])

/-- 1-D user-space coordinates 0, 1, 2 for the three rows: from row 0,
row 1 is the nearest other user and row 2 the farthest. -/
def coordsC1 : Matrix (Fin 3) (Fin 1) ℚ :=
  Matrix.of ![![0], ![1], ![2]]

/-- Row labels of the concrete pivot: userIDs 10, 11, 12. -/
def indexC1 : Fin 3 → ℕ := fun r => 10 + r.val

/-- Column lookup on the completed, clamped matrix, as the pipeline
passes it to `estimate_ratings`: every cell holds a numeric value. -/
def colFilledC1 : ℕ → Fin 3 → Option ℚ := fun _ v => some (completedC1 v 0)

/-- Column lookup on the original pivot `train_p`, where NaN marks
unobserved cells (the matrix the observed-mask check is meaningful
on). -/
def colOrigC1 : ℕ → Fin 3 → Option ℚ := fun _ v => train_pC1 v 0

/-- C8 counterexample coordinates: rows 0 and 1 share a coordinate, row
2 is elsewhere. -/
def coordsC8 : Matrix (Fin 3) (Fin 1) ℚ :=
  Matrix.of ![![0], ![0], ![1]]

/-- Concrete 1×1 ALS input with the single (observed) value 2. -/
def QC3 : Matrix (Fin 1) (Fin 1) ℚ := Matrix.of ![![2]]

/-- Concrete 1×1 initial user factor. -/
def XC3 : Matrix (Fin 1) (Fin 1) ℚ := Matrix.of ![![1]]

/-- Concrete 1×1 initial item factor. -/
def YC3 : Matrix (Fin 1) (Fin 1) ℚ := Matrix.of ![![1]]

/-! ## Helper lemmas -/

/-- When the coefficient matrix is nonsingular, `solveLin` returns the
(unique) solution of the linear system, as `np.linalg.solve` does. -/
theorem solveLin_correct {k : ℕ} (A : Matrix (Fin k) (Fin k) ℚ)
    (b : Fin k → ℚ) (hA : A.det ≠ 0) : A.mulVec (solveLin A b) = b := by
  unfold solveLin
  rw [Matrix.mulVec_mulVec, Matrix.mul_smul, Matrix.mul_adjugate,
    smul_smul, inv_mul_cancel₀ hA, one_smul, Matrix.one_mulVec]

/-- `get_error` is a sum of squares, hence nonnegative. -/
theorem get_error_nonneg {m n k : ℕ} (Q : Matrix (Fin m) (Fin n) ℚ)
    (X : Matrix (Fin m) (Fin k) ℚ) (Y : Matrix (Fin k) (Fin n) ℚ)
    (W : Matrix (Fin m) (Fin n) ℚ) : 0 ≤ get_error Q X Y W :=
  Finset.sum_nonneg fun _ _ => Finset.sum_nonneg fun _ _ => sq_nonneg _

/-- The ALS loop records one error value per iteration, each
nonnegative. -/
theorem alsIter_errors {m n k : ℕ} (weighted : Bool)
    (Q : Matrix (Fin m) (Fin n) ℚ) (lambda_ : ℚ) :
    ∀ (N : ℕ) (XY : Matrix (Fin m) (Fin k) ℚ × Matrix (Fin k) (Fin n) ℚ),
      (alsIter weighted Q lambda_ N XY).2.length = N ∧
      ∀ e ∈ (alsIter weighted Q lambda_ N XY).2, 0 ≤ e := by
  intro N
  induction N with
  | zero => intro XY; simp [alsIter]
  | succ nIt ih =>
    intro XY
    have h := ih (alsStep weighted Q lambda_ XY)
    refine ⟨by simp [alsIter, h.1], ?_⟩
    intro e he
    simp only [alsIter, List.mem_cons] at he
    rcases he with he | he
    · exact he ▸ get_error_nonneg _ _ _ _
    · exact h.2 e he

/-! ## Claim theorems -/

/-- C2: the claim fails.  Game 200 occurs in the full dataset, but the
pivot of the filtered training subset has no column for it: `train_p`'s
columns are the distinct gameIDs of `traindata`, not of the full data. -/
theorem C2_counterexample :
    pivotColumns (traindata userdataC2 testdataC2) = [100] ∧
    200 ∈ userdataC2.map (fun rec => rec.gameID) ∧
    200 ∉ pivotColumns (traindata userdataC2 testdataC2) := by
  decide

/-- C2 (amended): the pivot `train_p` has one column for each distinct
itemID appearing in the *filtered training subset*: `g` is a column iff
some full-data row with `gameID = g` has its userID in the test set.
ItemIDs occurring only outside the subset get no column. -/
theorem C2_pivot_columns_are_filtered_subset
    (userdata : List RatingRec) (testdata : List QueryRec) (g : ℕ) :
    g ∈ pivotColumns (traindata userdata testdata) ↔
      ∃ rec ∈ userdata,
        rec.gameID = g ∧ rec.userID ∈ testdata.map (fun q => q.userID) := by
  simp only [pivotColumns, traindata, List.mem_dedup, List.mem_map,
    List.mem_filter, decide_eq_true_eq]
  constructor
  · rintro ⟨rec, ⟨hmem, htest⟩, hg⟩
    exact ⟨rec, hmem, hg, htest⟩
  · rintro ⟨rec, hmem, hg, htest⟩
    exact ⟨rec, ⟨hmem, htest⟩, hg⟩

/-- C10: in the pipeline as composed, the rows of `train_p` are exactly
the userIDs of the full dataset that occur in the test set, every query
of `testdata_filt` has its userID among those rows, and the
`train_p.index.get_loc` lookup succeeds for every such query. -/
theorem C10_filtered_queries_always_found
    (userdata : List RatingRec) (testdata : List QueryRec) :
    (∀ u, u ∈ pivotIndex (traindata userdata testdata) ↔
        (u ∈ userdata.map (fun rec => rec.userID) ∧
         u ∈ testdata.map (fun q => q.userID))) ∧
    (∀ q ∈ testdata_filt userdata testdata,
        q.userID ∈ pivotIndex (traindata userdata testdata)) ∧
    (∀ q ∈ testdata_filt userdata testdata,
        (get_loc
          (fun r : Fin (pivotIndex (traindata userdata testdata)).length =>
            (pivotIndex (traindata userdata testdata)).get r)
          q.userID).isSome) := by
  have hrows : ∀ u, u ∈ pivotIndex (traindata userdata testdata) ↔
      (u ∈ userdata.map (fun rec => rec.userID) ∧
       u ∈ testdata.map (fun q => q.userID)) := by
    intro u
    simp only [pivotIndex, traindata, List.mem_dedup, List.mem_map,
      List.mem_filter, decide_eq_true_eq]
    constructor
    · rintro ⟨rec, ⟨hmem, htest⟩, hu⟩
      exact ⟨⟨rec, hmem, hu⟩, hu ▸ htest⟩
    · rintro ⟨⟨rec, hmem, hu⟩, htest⟩
      exact ⟨rec, ⟨hmem, hu ▸ htest⟩, hu⟩
  have hq : ∀ q ∈ testdata_filt userdata testdata,
      q.userID ∈ pivotIndex (traindata userdata testdata) := by
    intro q hq
    simp only [testdata_filt, List.mem_filter, decide_eq_true_eq] at hq
    refine (hrows q.userID).2 ⟨hq.2, ?_⟩
    exact List.mem_map.2 ⟨q, hq.1, rfl⟩
  refine ⟨hrows, hq, ?_⟩
  intro q hmem
  have h := hq q hmem
  obtain ⟨i, hi⟩ := List.mem_iff_get.1 h
  simp only [get_loc, List.find?_isSome, List.mem_finRange, true_and]
  exact ⟨i, by simpa using hi⟩

/-- C10 witness: in the concrete pipeline data, the query ⟨1, 100⟩
survives the filter and its userID is a row of the pivot. -/
theorem C10_witness :
    (⟨1, 100⟩ : QueryRec).userID ∈
      pivotIndex (traindata userdataC2 testdataC2) :=
  (C10_filtered_queries_always_found userdataC2 testdataC2).2.1
    ⟨1, 100⟩ (by decide)

/-- C4: after the clamping step every entry of the completed matrix lies
in [1, 10], for any input matrix.  (The model's entries are total
rational values: no NaN or missing value can remain.) -/
theorem C4_clamped_entries_in_range {m n : ℕ}
    (M : Matrix (Fin m) (Fin n) ℚ) (i : Fin m) (j : Fin n) :
    1 ≤ clampRatings M i j ∧ clampRatings M i j ≤ 10 := by
  simp only [clampRatings, clip_lower, clip_upper, Matrix.of_apply]
  exact ⟨le_max_right _ _, max_le (min_le_right _ _) (by norm_num)⟩

/-- C5: for either value of the weighted flag, `do_ALS` with iteration
count `N` records exactly `N` error values (no early stopping), each
nonnegative. -/
theorem C5_exactly_N_nonneg_errors {m n k : ℕ} (weighted : Bool)
    (Q : Matrix (Fin m) (Fin n) ℚ) (lambda_ : ℚ) (N : ℕ)
    (X0 : Matrix (Fin m) (Fin k) ℚ) (Y0 : Matrix (Fin k) (Fin n) ℚ) :
    (do_ALS Q N lambda_ weighted X0 Y0).2.2.2.length = N ∧
    ∀ e ∈ (do_ALS Q N lambda_ weighted X0 Y0).2.2.2, 0 ≤ e := by
  have h := alsIter_errors weighted Q lambda_ N (X0, Y0)
  exact ⟨h.1, h.2⟩

/-- C5 witness: the concrete 1×1 run with 2 iterations records exactly
2 error values. -/
theorem C5_witness :
    (do_ALS QC3 2 1 true XC3 YC3).2.2.2.length = 2 :=
  (C5_exactly_N_nonneg_errors true QC3 1 2 XC3 YC3).1

/-- C9: `do_ALS`'s internally derived weight matrix is 0 exactly on the
cells with value ≤ 0.5 (so a 0-filled missing cell, or a genuine rating
≤ 0.5, gets weight 0), and on a 0-filled pivot it coincides with the
observed mask iff every observed rating exceeds 0.5. -/
theorem C9_weight_matrix_thresholds_Q {m n m2 n2 : ℕ}
    (Q : Matrix (Fin m) (Fin n) ℚ)
    (P : Matrix (Fin m2) (Fin n2) (Option ℚ)) :
    (∀ i j, computeW Q i j = 0 ↔ Q i j ≤ 1 / 2) ∧
    (computeW (fillna0 P) = observedMask P ↔
      ∀ i j x, P i j = some x → 1 / 2 < x) := by
  have hW : ∀ {a b : ℕ} (R : Matrix (Fin a) (Fin b) ℚ) i j,
      computeW R i j = 0 ↔ R i j ≤ 1 / 2 := by
    intro a b R i j
    simp only [computeW, Matrix.of_apply]
    by_cases h : (1 : ℚ) / 2 < R i j
    · simp [h, not_le.2 h]
    · simp [h, not_lt.1 h]
  refine ⟨fun i j => hW Q i j, ?_⟩
  constructor
  · intro h i j x hx
    have := congrFun (congrFun h i) j
    simp only [computeW, observedMask, fillna0, Matrix.of_apply, hx,
      Option.getD_some, Option.isSome_some, if_true] at this
    by_contra hle
    rw [if_neg hle] at this
    exact zero_ne_one this
  · intro h
    ext i j
    rcases hP : P i j with _ | x
    · simp only [computeW, observedMask, fillna0, Matrix.of_apply, hP,
        Option.getD_none, Option.isSome_none]
      rw [if_neg (by norm_num), if_neg (by simp)]
    · simp only [computeW, observedMask, fillna0, Matrix.of_apply, hP,
        Option.getD_some, Option.isSome_some]
      rw [if_pos (h i j x hP), if_pos trivial]

/-- C9 witness: on the concrete matrices, the weight of the single cell
of `QC3` is 0 iff its value is ≤ 0.5. -/
theorem C9_witness : computeW QC3 0 0 = 0 ↔ QC3 0 0 ≤ 1 / 2 :=
  (C9_weight_matrix_thresholds_Q QC3 train_pC1).1 0 0

/-- C3: in weighted mode, each iteration sets every row u of X to the
solution of `(Y·diag(W_u)·Yᵀ + λI) x = Y·diag(W_u)·Q_uᵀ` and every
column i of Y to the solution of `(Xᵀ·diag(W_i)·X + λI) y =
Xᵀ·diag(W_i)·Q_i` (with X the freshly updated factor), whenever the
system matrix is nonsingular; and the returned completed matrix equals
X·Y at every cell. -/
theorem C3_weighted_update_solves_systems {m n k : ℕ}
    (Q : Matrix (Fin m) (Fin n) ℚ) (lambda_ : ℚ)
    (X : Matrix (Fin m) (Fin k) ℚ) (Y : Matrix (Fin k) (Fin n) ℚ) :
    (∀ u, (userSystem Q (computeW Q) Y lambda_ u).1.det ≠ 0 →
        (userSystem Q (computeW Q) Y lambda_ u).1.mulVec
          ((alsStep true Q lambda_ (X, Y)).1 u) =
        (userSystem Q (computeW Q) Y lambda_ u).2) ∧
    (∀ i, (itemSystem Q (computeW Q)
            (alsStep true Q lambda_ (X, Y)).1 lambda_ i).1.det ≠ 0 →
        (itemSystem Q (computeW Q)
            (alsStep true Q lambda_ (X, Y)).1 lambda_ i).1.mulVec
          (fun a => (alsStep true Q lambda_ (X, Y)).2 a i) =
        (itemSystem Q (computeW Q)
            (alsStep true Q lambda_ (X, Y)).1 lambda_ i).2) ∧
    (∀ (N : ℕ) (X0 : Matrix (Fin m) (Fin k) ℚ)
        (Y0 : Matrix (Fin k) (Fin n) ℚ) (i : Fin m) (j : Fin n),
        (do_ALS Q N lambda_ true X0 Y0).1 i j =
        ((do_ALS Q N lambda_ true X0 Y0).2.1 *
         (do_ALS Q N lambda_ true X0 Y0).2.2.1) i j) := by
  refine ⟨?_, ?_, ?_⟩
  · intro u hu
    exact solveLin_correct _ _ hu
  · intro i hi
    exact solveLin_correct _ _ hi
  · intro N X0 Y0 i j
    rfl

/-- C3 witness: in the concrete 1×1 weighted step, the updated X row
solves its user system (whose determinant is 2). -/
theorem C3_witness :
    (userSystem QC3 (computeW QC3) YC3 1 0).1.mulVec
        ((alsStep true QC3 1 (XC3, YC3)).1 0) =
      (userSystem QC3 (computeW QC3) YC3 1 0).2 :=
  (C3_weighted_update_solves_systems QC3 1 XC3 YC3).1 0
    (by
      rw [Matrix.det_fin_one]
      norm_num [userSystem, Matrix.mul_apply, Fin.sum_univ_one, computeW, QC3,
        YC3, Matrix.one_apply, Matrix.diagonal_apply, Matrix.smul_apply,
        Matrix.add_apply, Matrix.vecMul, Matrix.dotProduct, Matrix.vecHead,
        Matrix.vecTail, Matrix.transpose_apply])

/-- Squared distances are nonnegative. -/
theorem distsq_nonneg {d : ℕ} (a b : Fin d → ℚ) : 0 ≤ distsq a b :=
  Finset.sum_nonneg fun _ _ => sq_nonneg _

/-- The squared distance of a coordinate to itself is 0. -/
theorem distsq_self {d : ℕ} (a : Fin d → ℚ) : distsq a a = 0 := by
  simp [distsq]

/-- The argsort order is total. -/
theorem distRank_total {m : ℕ} (dists : Fin m → ℚ) :
    IsTotal (Fin m) (distRank dists) := by
  constructor
  intro a b
  rcases lt_trichotomy (dists a) (dists b) with h | h | h
  · exact Or.inl (Or.inl h)
  · exact (le_total a b).imp (fun hab => Or.inr ⟨h, hab⟩)
      (fun hba => Or.inr ⟨h.symm, hba⟩)
  · exact Or.inr (Or.inl h)

/-- The argsort order is transitive. -/
theorem distRank_trans {m : ℕ} (dists : Fin m → ℚ) :
    IsTrans (Fin m) (distRank dists) := by
  constructor
  intro a b c hab hbc
  rcases hab with h1 | ⟨e1, l1⟩ <;> rcases hbc with h2 | ⟨e2, l2⟩
  · exact Or.inl (h1.trans h2)
  · exact Or.inl (e2 ▸ h1)
  · exact Or.inl (e1.trans_lt h2)
  · exact Or.inr ⟨e1.trans e2, l1.trans l2⟩

/-- Started on an accumulator shorter than the target count, the
neighbour-walk produces the accumulator followed by the first
`nn - acc.length` non-NaN values along the walk order. -/
theorem collectRatings_eq_take {m : ℕ} (col : Fin m → Option ℚ) (nn : ℕ) :
    ∀ (l : List (Fin m)) (acc : List ℚ), acc.length < nn →
      collectRatings col nn l acc =
        acc ++ (l.filterMap col).take (nn - acc.length) := by
  intro l
  induction l with
  | nil => intro acc _; simp [collectRatings]
  | cons u rest ih =>
    intro acc hacc
    rcases hcol : col u with _ | r
    · simp only [collectRatings, hcol]
      rw [List.filterMap_cons_none hcol]
      exact ih acc hacc
    · simp only [collectRatings, hcol]
      rw [List.filterMap_cons_some hcol]
      by_cases hb : nn ≤ acc.length + 1
      · rw [if_pos hb]
        have h1 : nn - acc.length = 1 := by omega
        rw [h1]
        simp
      · rw [if_neg hb]
        have h1 : (acc ++ [r]).length < nn := by
          simp only [List.length_append, List.length_cons, List.length_nil]
          omega
        rw [ih (acc ++ [r]) h1]
        have h2 : nn - acc.length = (nn - (acc ++ [r]).length) + 1 := by
          simp only [List.length_append, List.length_cons, List.length_nil]
          omega
        rw [h2, List.take_succ_cons, List.append_assoc]
        rfl

/-- The lookup of userID 10 in the concrete index resolves to row 0. -/
theorem get_locC1_ten : get_loc indexC1 10 = some 0 := by decide

/-- UserID 99 is absent from the concrete index. -/
theorem get_locC1_absent : get_loc indexC1 99 = none := by decide

/-- The squared distances from row 0 of the concrete coordinates. -/
theorem distsC1 :
    (fun v => distsq (fun j => coordsC1 (0 : Fin 3) j)
      (fun j => coordsC1 v j)) = ![0, 1, 4] := by
  funext v
  fin_cases v <;> norm_num [distsq, coordsC1, Fin.sum_univ_one, Matrix.of_apply]

/-- The argsort order seen from row 0 of the concrete coordinates. -/
theorem argsortC1 :
    argsortDist (fun v => distsq (fun j => coordsC1 (0 : Fin 3) j)
      (fun j => coordsC1 v j)) = [0, 1, 2] := by
  rw [argsortDist, distsC1]
  show List.insertionSort (distRank ![0, 1, 4]) [0, 1, 2] = [0, 1, 2]
  norm_num [List.insertionSort, List.orderedInsert, distRank, Fin.le_def]

/-- C1: the claim fails on the pipeline as invoked, and the spec (and
the notebook's own description) is the intent: because the matrix passed
to `estimate_ratings` is the ALS-completed, clamped one, the
`np.isnan` check never fires and the walk takes the completed value of
the very first candidate (the query row's own imputed 5) instead of
skipping to the nearest genuinely observed rating (user 2's 9), which
the same function produces when given the original observed/NaN
pivot. -/
theorem C1_as_invoked_mask_check_never_fires :
    estimate_ratings [⟨10, 7⟩] coordsC1 indexC1 colFilledC1 1 =
      Except.ok [some 5] ∧
    estimate_ratings [⟨10, 7⟩] coordsC1 indexC1 colOrigC1 1 =
      Except.ok [some 9] := by
  constructor
  · rw [estimate_ratings, List.mapM_cons, List.mapM_nil]
    rw [show estimateOne coordsC1 indexC1 colFilledC1 1 ⟨10, 7⟩ =
        Except.ok (npMean (collectRatings (colFilledC1 7) 1
          (argsortDist (fun v => distsq (fun j => coordsC1 (0 : Fin 3) j)
            (fun j => coordsC1 v j))) [])) from by
      rw [estimateOne, get_locC1_ten]]
    rw [argsortC1]
    norm_num [collectRatings, colFilledC1, completedC1, clampRatings,
      clip_lower, clip_upper, Matrix.of_apply, min_def, max_def, npMean]
  · rw [estimate_ratings, List.mapM_cons, List.mapM_nil]
    rw [show estimateOne coordsC1 indexC1 colOrigC1 1 ⟨10, 7⟩ =
        Except.ok (npMean (collectRatings (colOrigC1 7) 1
          (argsortDist (fun v => distsq (fun j => coordsC1 (0 : Fin 3) j)
            (fun j => coordsC1 v j))) [])) from by
      rw [estimateOne, get_locC1_ten]]
    rw [argsortC1]
    norm_num [collectRatings, colOrigC1, train_pC1, Matrix.of_apply, npMean]

/-- C6: the claim fails.  With userID 99 absent from the index, the
batch [⟨99,7⟩, ⟨10,7⟩] does not produce estimates for the remaining
queries: the KeyError aborts the whole call, although the second query
is valid. -/
theorem C6_counterexample_batch_aborts :
    estimate_ratings [⟨99, 7⟩, ⟨10, 7⟩] coordsC1 indexC1 colOrigC1 1 =
      Except.error 99 := by
  rw [estimate_ratings, List.mapM_cons,
    show estimateOne coordsC1 indexC1 colOrigC1 1 ⟨99, 7⟩ =
        Except.error 99 from by
      rw [estimateOne, get_locC1_absent]]
  rfl

/-- C6 (amended): when a query's userID is absent from the training
index, `train_p.index.get_loc` raises a KeyError that propagates out of
`estimate_ratings`: the whole batch aborts with that userID, and no
estimate is produced for any query (in the pipeline as composed this
case never arises; see the C10 theorem). -/
theorem C6_lookup_failure_aborts_batch {m d : ℕ}
    (coords : Matrix (Fin m) (Fin d) ℚ) (index : Fin m → ℕ)
    (col : ℕ → Fin m → Option ℚ) (nn : ℕ) (q : QueryRec)
    (rest : List QueryRec) (h : ∀ r : Fin m, index r ≠ q.userID) :
    estimate_ratings (q :: rest) coords index col nn =
      Except.error q.userID := by
  have hloc : get_loc index q.userID = none := by
    rw [get_loc, List.find?_eq_none]
    intro r _
    simp [h r]
  rw [estimate_ratings, List.mapM_cons,
    show estimateOne coords index col nn q = Except.error q.userID from by
      rw [estimateOne, hloc]]
  rfl

/-- C6 witness: a singleton batch for absent userID 99 aborts with
error 99. -/
theorem C6_witness :
    estimate_ratings [⟨99, 7⟩] coordsC1 indexC1 colOrigC1 1 =
      Except.error 99 :=
  C6_lookup_failure_aborts_batch coordsC1 indexC1 colOrigC1 1 ⟨99, 7⟩ []
    (by decide)

/-- C7: once the user lookup succeeds (row `r`) and the neighbour count
is positive, `estimate_ratings`'s per-query body returns `np.mean` of
exactly the first `numneighbors2use` genuinely present (non-NaN) values
of the game's column in ascending-distance order; the collected list has
at most `numneighbors2use` elements; when no user has a value the
result is NaN (`none`) rather than an error; and when some user has a
value the collected list is nonempty, so the result is the arithmetic
mean. -/
theorem C7_mean_of_nearest_observed_or_nan {m d : ℕ}
    (coords : Matrix (Fin m) (Fin d) ℚ) (index : Fin m → ℕ)
    (col : ℕ → Fin m → Option ℚ) (nn : ℕ) (q : QueryRec) (r : Fin m)
    (hr : get_loc index q.userID = some r) (hnn : 0 < nn) :
    estimateOne coords index col nn q =
      Except.ok (npMean (sortedObservedTake coords (col q.gameID) nn r)) ∧
    (sortedObservedTake coords (col q.gameID) nn r).length ≤ nn ∧
    ((∀ v, col q.gameID v = none) →
      npMean (sortedObservedTake coords (col q.gameID) nn r) = none) ∧
    (sortedObservedTake coords (col q.gameID) nn r ≠ [] →
      npMean (sortedObservedTake coords (col q.gameID) nn r) =
        some ((sortedObservedTake coords (col q.gameID) nn r).sum /
          ((sortedObservedTake coords (col q.gameID) nn r).length : ℚ))) ∧
    ((∃ v, (col q.gameID v).isSome) →
      sortedObservedTake coords (col q.gameID) nn r ≠ []) := by
  refine ⟨?_, ?_, ?_, ?_, ?_⟩
  · rw [show estimateOne coords index col nn q =
        Except.ok (npMean (collectRatings (col q.gameID) nn
          (argsortDist (fun v => distsq (fun j => coords r j)
            (fun j => coords v j))) [])) from by
      rw [estimateOne, hr]]
    rw [collectRatings_eq_take (col q.gameID) nn _ []
      (by simpa using hnn)]
    simp only [List.nil_append, List.length_nil, Nat.sub_zero]
    rfl
  · rw [sortedObservedTake, List.length_take]
    exact min_le_left _ _
  · intro h
    rw [sortedObservedTake,
      List.filterMap_eq_nil_iff.2 (fun a _ => h a), List.take_nil]
    rfl
  · intro hne
    rw [npMean, if_neg (by simpa [List.isEmpty_iff] using hne)]
  · rintro ⟨v, hv⟩ hemp
    rw [sortedObservedTake] at hemp
    rcases List.take_eq_nil_iff.1 hemp with h0 | hfm
    · omega
    · have hmem : v ∈ argsortDist (fun v => distsq (fun j => coords r j)
          (fun j => coords v j)) :=
        (List.mem_insertionSort _).2 (List.mem_finRange v)
      rw [List.filterMap_eq_nil_iff.1 hfm v hmem] at hv
      simp at hv

/-- C7 witness: for the concrete query ⟨10, 7⟩ on the original pivot,
the estimate is the mean of the nearest observed values. -/
theorem C7_witness :
    estimateOne coordsC1 indexC1 colOrigC1 1 ⟨10, 7⟩ =
      Except.ok (npMean (sortedObservedTake coordsC1 (colOrigC1 7) 1 0)) :=
  (C7_mean_of_nearest_observed_or_nan coordsC1 indexC1 colOrigC1 1
    ⟨10, 7⟩ 0 (by decide) (by decide)).1

/-- C8: the claim fails.  Rows 0 and 1 of the concrete coordinates
share a coordinate; querying from row 1, the (stable, tie-by-row-order)
sort ranks row 0 first, so the query user, despite its distance 0, is
not ranked first. -/
theorem C8_counterexample_self_not_first :
    argsortDist (fun v => distsq (fun j => coordsC8 (1 : Fin 3) j)
      (fun j => coordsC8 v j)) = [0, 1, 2] ∧
    (argsortDist (fun v => distsq (fun j => coordsC8 (1 : Fin 3) j)
      (fun j => coordsC8 v j))).head? ≠ some 1 := by
  have h : argsortDist (fun v => distsq (fun j => coordsC8 (1 : Fin 3) j)
      (fun j => coordsC8 v j)) = [0, 1, 2] := by
    have hd : (fun v => distsq (fun j => coordsC8 (1 : Fin 3) j)
        (fun j => coordsC8 v j)) = ![0, 0, 1] := by
      funext v
      fin_cases v <;>
        norm_num [distsq, coordsC8, Fin.sum_univ_one, Matrix.of_apply]
    rw [argsortDist, hd]
    show List.insertionSort (distRank ![0, 0, 1]) [0, 1, 2] = [0, 1, 2]
    norm_num [List.insertionSort, List.orderedInsert, distRank, Fin.le_def]
  exact ⟨h, by rw [h]; decide⟩

/-- C8 (amended): all users, the query user included, are sorted
ascending by distance to the query user's coordinate, with ties broken
by original row order in the model (the source's `np.argsort` default
quicksort does not document its tie order); the sorted list is a
permutation of all rows; the query user's distance is 0; and the query
user is ranked first whenever no other row is at distance 0 (a row at
distance 0 with a smaller row index outranks it). -/
theorem C8_sorted_ascending_self_included {m d : ℕ}
    (coords : Matrix (Fin m) (Fin d) ℚ) (r : Fin m) :
    List.Sorted (distRank (fun v => distsq (fun j => coords r j)
        (fun j => coords v j)))
      (argsortDist (fun v => distsq (fun j => coords r j)
        (fun j => coords v j))) ∧
    (argsortDist (fun v => distsq (fun j => coords r j)
        (fun j => coords v j))).Perm (List.finRange m) ∧
    distsq (fun j => coords r j) (fun j => coords r j) = 0 ∧
    r ∈ argsortDist (fun v => distsq (fun j => coords r j)
        (fun j => coords v j)) ∧
    ((∀ v, v ≠ r → distsq (fun j => coords r j) (fun j => coords v j) ≠ 0) →
      (argsortDist (fun v => distsq (fun j => coords r j)
        (fun j => coords v j))).head? = some r) := by
  set dists : Fin m → ℚ :=
    fun v => distsq (fun j => coords r j) (fun j => coords v j) with hdists
  haveI := distRank_total dists
  haveI := distRank_trans dists
  have hsorted : List.Sorted (distRank dists) (argsortDist dists) :=
    List.sorted_insertionSort (distRank dists) (List.finRange m)
  have hperm : (argsortDist dists).Perm (List.finRange m) :=
    List.perm_insertionSort (distRank dists) (List.finRange m)
  have hself : dists r = 0 := distsq_self _
  have hmem : r ∈ argsortDist dists :=
    (List.mem_insertionSort _).2 (List.mem_finRange r)
  refine ⟨hsorted, hperm, hself, hmem, ?_⟩
  intro h
  rcases hlist : argsortDist dists with _ | ⟨a, t⟩
  · rw [hlist] at hmem
    cases hmem
  · rw [hlist] at hmem hsorted
    rcases List.mem_cons.1 hmem with heq | hmemt
    · rw [← heq]
      rfl
    · by_cases hae : a = r
      · rw [hae]
        rfl
      · have har : distRank dists a r :=
          (List.sorted_cons.1 hsorted).1 r hmemt
        rcases har with hlt | ⟨heq0, _⟩
        · rw [hself] at hlt
          exact absurd hlt (not_lt.2 (distsq_nonneg _ _))
        · exact absurd (heq0.trans hself) (h a hae)

/-- C8 witness: from row 0 of the concrete coordinates, every other row
is at positive distance and row 0 is ranked first. -/
theorem C8_witness :
    (argsortDist (fun v => distsq (fun j => coordsC1 (0 : Fin 3) j)
      (fun j => coordsC1 v j))).head? = some 0 :=
  (C8_sorted_ascending_self_included coordsC1 0).2.2.2.2 (by
    intro v hv
    fin_cases v
    · exact absurd rfl hv
    · norm_num [distsq, coordsC1, Fin.sum_univ_one, Matrix.of_apply]
    · norm_num [distsq, coordsC1, Fin.sum_univ_one, Matrix.of_apply])
